import Mathlib

/-!
A verification development for a small news-and-transcription web
application.  The definitions below are shallow embeddings of the
application's functions:

* `selectNews` / `filteredNews` / `storeAfterQuery` embed the `filteredNews`
  memo of `src/components/NewsViewer.tsx`;
* `renderHighlightedText` embeds the highlighting helper of the same file;
* `handleTranscribe` / `handleTypeChange` embed the client component
  (`VideoTranscriber`, the variant that posts to the backend API);
* `ytHandler` embeds `src/api/transcribe-youtube.ts`;
* `fileHandler` embeds `src/api/transcribe-file.ts`.

JavaScript strings are modelled as Lean `String`s (lists of characters);
`String.prototype.toLowerCase` as character-wise `Char.toLower`;
`String.prototype.includes` as `containsChars`; `String.prototype.trim`
as `jsTrim`.  `Date` parsing (`new Date(s).getTime()`) is an external
runtime facility and is modelled as an arbitrary function
`g : String → Int` supplied as a parameter.  The stable in-place
`Array.prototype.sort` (stable per the ECMAScript 2019 specification) is
modelled with `List.mergeSort`, which is likewise stable.
-/

/-- Character-wise lowercasing of a character list; models
`String.prototype.toLowerCase` on the strings this development handles. -/
def lowerChars (s : List Char) : List Char := s.map Char.toLower

/-- Lowercase a string character by character. -/
def lowerStr (s : String) : String := String.mk (lowerChars s.data)

/-- `startsWithChars s p = true` iff `p` is an initial segment of `s`. -/
def startsWithChars : List Char → List Char → Bool
  | _, [] => true
  | [], _ :: _ => false
  | c :: cs, d :: ds => c == d && startsWithChars cs ds

/-- `containsChars hay needle = true` iff `needle` occurs contiguously in
`hay`; models `String.prototype.includes`. -/
def containsChars : List Char → List Char → Bool
  | [], needle => needle.isEmpty
  | c :: cs, needle => startsWithChars (c :: cs) needle || containsChars cs needle

/-- Substring test on strings, via `containsChars`. -/
def containsStr (hay needle : String) : Bool := containsChars hay.data needle.data

/-- Remove leading and trailing whitespace; models `String.prototype.trim`. -/
def jsTrim (s : String) : String :=
  String.mk (((s.data.dropWhile Char.isWhitespace).reverse.dropWhile Char.isWhitespace).reverse)

/-- The article record of `src/types.ts` (`NewsArticle`). -/
structure NewsArticle where
  id : Nat
  channelId : String
  title : String
  content : String
  date : String
  imageUrl : String
deriving DecidableEq, Repr

/-- The comparator of `filteredNews`:
`(a, b) => new Date(b.date).getTime() - new Date(a.date).getTime()`.
`a` may precede `b` exactly when the comparator is non-positive, i.e. when
`g b.date ≤ g a.date` (date-descending).  `g` models `new Date(·).getTime()`. -/
def descByDate (g : String → Int) (a b : NewsArticle) : Bool :=
  decide (g b.date ≤ g a.date)

/-- The channel predicate of the spec: the filter is the sentinel "all" or
the article belongs to the filtered channel. -/
def channelPred (c : String) (a : NewsArticle) : Bool :=
  c == "all" || a.channelId == c

/-- The case-insensitive substring predicate of the spec: the lowercased
query occurs in the lowercased title or the lowercased content. -/
def substrPred (q : String) (a : NewsArticle) : Bool :=
  containsStr (lowerStr a.title) (lowerStr q) || containsStr (lowerStr a.content) (lowerStr q)

/-- The selection stage of `filteredNews` in `src/components/NewsViewer.tsx`:
first the channel filter (`activeChannel === 'all' ? MOCK_NEWS_DATA :
MOCK_NEWS_DATA.filter(...)`), then, only when `searchQuery.trim() !== ''`,
the case-insensitive search filter with `lowercasedQuery =
searchQuery.toLowerCase()`.  The store (`MOCK_NEWS_DATA`) is a parameter. -/
def selectNews (store : List NewsArticle) (activeChannel searchQuery : String) :
    List NewsArticle :=
  let news := if activeChannel == "all" then store
              else store.filter (fun a => a.channelId == activeChannel)
  if jsTrim searchQuery ≠ "" then
    let lowercasedQuery := lowerStr searchQuery
    news.filter (fun a =>
      containsStr (lowerStr a.title) lowercasedQuery ||
      containsStr (lowerStr a.content) lowercasedQuery)
  else news

/-- The value of the `filteredNews` memo: the selected articles sorted by
date descending with the comparator `descByDate g` (a stable sort, per
ECMAScript 2019 `Array.prototype.sort`). -/
def filteredNews (g : String → Int) (store : List NewsArticle) (c q : String) :
    List NewsArticle :=
  (selectNews store c q).mergeSort (descByDate g)

/-- The state of the store array after evaluating the `filteredNews` memo.
`Array.prototype.sort` sorts in place; `news` aliases `MOCK_NEWS_DATA`
exactly when the channel branch returned the store itself (filter `"all"`)
and the search filter was skipped (`searchQuery.trim() === ''`), since
`Array.prototype.filter` returns a fresh array.  On that path the sort
reorders the store array itself; on every other path the store is left
untouched. -/
def storeAfterQuery (g : String → Int) (store : List NewsArticle) (c q : String) :
    List NewsArticle :=
  if c = "all" ∧ jsTrim q = "" then store.mergeSort (descByDate g) else store

/-! ## Highlighting (`renderHighlightedText` of `src/components/NewsViewer.tsx`) -/

/-- First case-insensitive occurrence of `q` in a text: returns
`some (before, matched, after)` where `matched` is the occurrence in its
original casing, or `none` when `q` does not occur. -/
def findMatchCI (q : List Char) : List Char → Option (List Char × List Char × List Char)
  | [] => none
  | c :: cs =>
    if startsWithChars (lowerChars (c :: cs)) (lowerChars q) then
      some ([], (c :: cs).take q.length, (c :: cs).drop q.length)
    else
      match findMatchCI q cs with
      | none => none
      | some (b, m, a) => some (c :: b, m, a)

theorem findMatchCI_append (q : List Char) :
    ∀ (t b m a : List Char), findMatchCI q t = some (b, m, a) → b ++ m ++ a = t := by
  intro t
  induction t with
  | nil => intro b m a h; simp [findMatchCI] at h
  | cons c cs ih =>
    intro b m a h
    rw [findMatchCI] at h
    by_cases hs : startsWithChars (lowerChars (c :: cs)) (lowerChars q) = true
    · rw [if_pos hs] at h
      simp only [Option.some.injEq, Prod.mk.injEq] at h
      obtain ⟨hb, hm, ha⟩ := h
      rw [← hb, ← hm, ← ha]
      simp
    · rw [if_neg hs] at h
      cases hr : findMatchCI q cs with
      | none => rw [hr] at h; simp at h
      | some r =>
        obtain ⟨b2, m2, a2⟩ := r
        rw [hr] at h
        simp only [Option.some.injEq, Prod.mk.injEq] at h
        obtain ⟨hb, hm, ha⟩ := h
        rw [← hb, ← hm, ← ha]
        have hih := ih b2 m2 a2 hr
        simpa using hih

theorem startsWithChars_length (p : List Char) :
    ∀ s : List Char, startsWithChars s p = true → p.length ≤ s.length := by
  induction p with
  | nil => intro s _; simp
  | cons d ds ih =>
    intro s h
    cases s with
    | nil => simp [startsWithChars] at h
    | cons c cs =>
      rw [startsWithChars, Bool.and_eq_true] at h
      have := ih cs h.2
      simpa using this

theorem findMatchCI_rest_lt (q : List Char) (hq : q ≠ []) :
    ∀ (t b m a : List Char), findMatchCI q t = some (b, m, a) → a.length < t.length := by
  intro t
  induction t with
  | nil => intro b m a h; simp [findMatchCI] at h
  | cons c cs ih =>
    intro b m a h
    rw [findMatchCI] at h
    by_cases hs : startsWithChars (lowerChars (c :: cs)) (lowerChars q) = true
    · rw [if_pos hs] at h
      simp only [Option.some.injEq, Prod.mk.injEq] at h
      obtain ⟨_, _, ha⟩ := h
      rw [← ha]
      have hlen : q.length ≤ (c :: cs).length := by
        have := startsWithChars_length (lowerChars q) (lowerChars (c :: cs)) hs
        simpa [lowerChars] using this
      have hpos : 0 < q.length := List.length_pos.mpr hq
      simp only [List.length_drop]
      omega
    · rw [if_neg hs] at h
      cases hr : findMatchCI q cs with
      | none => rw [hr] at h; simp at h
      | some r =>
        obtain ⟨b2, m2, a2⟩ := r
        rw [hr] at h
        simp only [Option.some.injEq, Prod.mk.injEq] at h
        obtain ⟨_, _, ha⟩ := h
        rw [← ha]
        have hih := ih b2 m2 a2 hr
        simp only [List.length_cons]
        omega

/-- The segmentation produced by
`text.split(new RegExp('(' + query + ')', 'gi'))` for a query whose
characters are all regex-literal: alternating unmatched and matched
segments, matched segments kept in their original casing, including a
possibly empty leading and trailing segment (as `String.prototype.split`
does with a capturing group). -/
def splitHighlight (q text : List Char) : List (List Char) :=
  if hq : q = [] then [text]
  else
    match hm : findMatchCI q text with
    | none => [text]
    | some (b, m, a) => b :: m :: splitHighlight q a
termination_by text.length
decreasing_by exact findMatchCI_rest_lt q hq text b m a hm

/-- JS `RegExp` pattern syntax characters.  A query avoiding all of them is
matched literally by `new RegExp('(' + query + ')', 'gi')`. -/
def regexSyntaxChars : List Char :=
  ['\\', '^', '$', '.', '*', '+', '?', '(', ')', '[', ']', '\x7b', '\x7d', '|']

/-- `true` when every character of the query is regex-literal. -/
def regexLiteralQuery (q : String) : Bool :=
  q.data.all (fun c => !(regexSyntaxChars.contains c))

/-- The list of text segments produced by `renderHighlightedText` in
`src/components/NewsViewer.tsx`: for a falsy (empty) query the text is
returned unsplit; otherwise the text is split on the capturing regex
`('(' + query + ')', 'gi')`.  This model covers queries whose characters
are all regex-literal, where that regex matches exactly the
case-insensitive literal occurrences of the query; a query containing
regex syntax characters is interpreted (or rejected) by the `RegExp`
constructor instead and lies outside this model. -/
def renderHighlightedText (text query : String) : List String :=
  if query = "" then [text]
  else (splitHighlight query.data text.data).map String.mk

/-- Concatenation of displayed segments back into one string. -/
def concatSegments (parts : List String) : String :=
  String.mk ((parts.map String.data).flatten)

/-! ## Client transcriber (`VideoTranscriber`, the backend-API variant) -/

/-- The two input modes of the transcriber UI. -/
inductive InputType where
  | url
  | file
deriving DecidableEq, Repr

/-- A user-selected local file: name, declared MIME type and declared size
in bytes (`File.name`, `File.type`, `File.size`). -/
structure ClientFile where
  name : String
  mimeType : String
  size : Nat
deriving DecidableEq, Repr

/-- An outbound request dispatched by the client component. -/
inductive NetCall where
  | transcribeYoutube (url : String)
  | transcribeFile (f : ClientFile)
deriving DecidableEq, Repr

/-- The fixed upload ceiling of `handleTranscribe`:
`4.5 * 1024 * 1024` bytes. -/
def MAX_UPLOAD_BYTES : Nat := 4718592

/-- The synchronous part of `handleTranscribe` in the backend-API variant of
`VideoTranscriber`, up to dispatching the network request: the outbound
calls made and the error message displayed when no call is dispatched
(`none` when a request was dispatched; its response handling is modelled on
the server side by `ytHandler` / `fileHandler`).  Thrown validation errors
are routed through the catch block, which prepends `轉換失敗：` since the
messages do not contain `Failed to fetch`. -/
def handleTranscribe (inputType : InputType) (urlValue : String)
    (file : Option ClientFile) : List NetCall × Option String :=
  if (inputType = .url ∧ jsTrim urlValue = "") ∨ (inputType = .file ∧ file = none) then
    ([], some "請提供影片連結或上傳檔案。")
  else
    match inputType with
    | .url => ([.transcribeYoutube urlValue], none)
    | .file =>
      match file with
      | none => ([], some "轉換失敗：請選擇一個檔案。")
      | some f =>
        if f.size > MAX_UPLOAD_BYTES then
          ([], some "轉換失敗：檔案大小超過 4.5MB 限制，無法上傳。")
        else
          ([.transcribeFile f], none)

/-- The UI state of `VideoTranscriber` (the backend-API variant, which also
tracks `isCopied`). -/
structure TranscriberState where
  inputType : InputType
  urlValue : String
  file : Option ClientFile
  fileName : String
  isLoading : Bool
  transcript : String
  error : String
  isCopied : Bool
deriving DecidableEq, Repr

/-- `resetState`: clears every input-dependent field. -/
def resetState (s : TranscriberState) : TranscriberState :=
  { s with urlValue := "", file := none, fileName := "", transcript := "",
           error := "", isCopied := false }

/-- `handleTypeChange`: selects the new input mode, then applies the full
reset. -/
def handleTypeChange (s : TranscriberState) (t : InputType) : TranscriberState :=
  resetState { s with inputType := t }

/-! ## Server handlers -/

/-- A JSON response body: a transcript, an error message, or an error
message with diagnostic details. -/
inductive RespBody where
  | transcript (t : String)
  | err (e : String)
  | errWithDetails (e d : String)
deriving DecidableEq, Repr

/-- An HTTP response: status code and JSON body. -/
structure HttpResponse where
  status : Nat
  body : RespBody
deriving DecidableEq, Repr

/-- `MAX_VIDEO_DURATION_SECONDS` of `src/api/transcribe-youtube.ts`. -/
def MAX_VIDEO_DURATION_SECONDS : Nat := 600

/-- The resolved video metadata used by the handler:
`parseInt(info.videoDetails.lengthSeconds, 10)`. -/
structure YtVideoInfo where
  lengthSeconds : Nat
deriving DecidableEq, Repr

/-- The per-request responses of the external collaborators of
`transcribe-youtube`: URL validation, metadata resolution (which can
throw), audio-format selection, the audio download (whose stream errors
are wrapped as `Stream error: ...`), credential presence, and the AI call
(`.ok` carries `response.text`, `.error` the thrown message). -/
structure YtWorld where
  urlValid : Bool
  info : Except String YtVideoInfo
  audioFormat : Option Unit
  audioDownload : Except String String
  apiKeySet : Bool
  aiResult : Except String String

/-- The outbound effects of the `transcribe-youtube` handler, in order. -/
inductive YtEffect where
  | getInfo
  | download
  | aiCall
deriving DecidableEq, Repr

/-- The catch block of `src/api/transcribe-youtube.ts`: substring-based
classification of the thrown message. -/
def ytCatch (msg : String) : HttpResponse :=
  if containsStr (lowerStr msg) "api key" || containsStr msg "API_KEY" then
    ⟨500, .err "伺服器 API 金鑰設定錯誤。"⟩
  else if containsStr (lowerStr msg) "resource has been exhausted" then
    ⟨413, .err "影片檔案過大，無法處理。"⟩
  else
    ⟨500, .errWithDetails "處理 YouTube 影片時發生錯誤。" msg⟩

/-- The duration rejection of `transcribe-youtube`:
`400 {error: '影片長度超過 ${MAX_VIDEO_DURATION_SECONDS / 60} 分鐘限制。'}`. -/
def durationLimitResponse : HttpResponse :=
  ⟨400, .err ("影片長度超過 " ++ toString (MAX_VIDEO_DURATION_SECONDS / 60) ++ " 分鐘限制。")⟩

/-- The `transcribe-youtube` handler: method check, URL validation
(`!url || !ytdl.validateURL(url)`, where the empty string is falsy),
metadata resolution, duration ceiling, audio-format selection, audio
download, credential check, AI call, and the catch block; paired with the
ordered list of outbound effects performed. -/
def ytHandler (method : String) (url : Option String) (w : YtWorld) :
    List YtEffect × HttpResponse :=
  if method ≠ "POST" then ([], ⟨405, .err "Method Not Allowed"⟩)
  else
    match url with
    | none => ([], ⟨400, .err "無效或遺失 YouTube 連結"⟩)
    | some u =>
      if u = "" ∨ w.urlValid = false then ([], ⟨400, .err "無效或遺失 YouTube 連結"⟩)
      else
        match w.info with
        | .error e => ([.getInfo], ytCatch e)
        | .ok info =>
          if info.lengthSeconds > MAX_VIDEO_DURATION_SECONDS then
            ([.getInfo], durationLimitResponse)
          else
            match w.audioFormat with
            | none => ([.getInfo], ⟨400, .err "找不到此影片的音訊格式。"⟩)
            | some _ =>
              match w.audioDownload with
              | .error e => ([.getInfo, .download], ytCatch ("Stream error: " ++ e))
              | .ok _ =>
                if w.apiKeySet = false then
                  ([.getInfo, .download], ytCatch "API_KEY environment variable is not set.")
                else
                  match w.aiResult with
                  | .error e => ([.getInfo, .download, .aiCall], ytCatch e)
                  | .ok t => ([.getInfo, .download, .aiCall], ⟨200, .transcript t⟩)

/-- The per-request responses of the external collaborators of
`transcribe-file`: credential presence and the AI call. -/
structure FileWorld where
  apiKeySet : Bool
  aiResult : Except String String

/-- The outbound effects of the `transcribe-file` handler. -/
inductive FileEffect where
  | aiCall
deriving DecidableEq, Repr

/-- The catch block of `src/api/transcribe-file.ts`. -/
def fileCatch (msg : String) : HttpResponse :=
  if containsStr (lowerStr msg) "api key" || containsStr msg "API_KEY" then
    ⟨500, .err "伺服器 API 金鑰設定錯誤。"⟩
  else if containsStr (lowerStr msg) "resource has been exhausted" ||
          containsStr (lowerStr msg) "request entity too large" then
    ⟨413, .err "檔案過大，無法處理。請上傳小於 4.5MB 的檔案。"⟩
  else
    ⟨500, .errWithDetails "處理檔案時發生錯誤。" msg⟩

/-- The `transcribe-file` handler: method check, body validation
(`!fileData || !mimeType`, where the empty string is falsy), credential
check, AI call, and the catch block; paired with the list of outbound
effects performed. -/
def fileHandler (method : String) (fileData mimeType : Option String) (w : FileWorld) :
    List FileEffect × HttpResponse :=
  if method ≠ "POST" then ([], ⟨405, .err "Method Not Allowed"⟩)
  else if fileData = none ∨ fileData = some "" ∨ mimeType = none ∨ mimeType = some "" then
    ([], ⟨400, .err "遺失檔案資料或 MIME 類型。"⟩)
  else if w.apiKeySet = false then
    ([], fileCatch "API_KEY environment variable is not set.")
  else
    match w.aiResult with
    | .error e => ([.aiCall], fileCatch e)
    | .ok t => ([.aiCall], ⟨200, .transcript t⟩)

/-! ## Theorems -/

theorem ytCatch_ne_durationLimit (m : String) : ytCatch m ≠ durationLimitResponse := by
  unfold ytCatch durationLimitResponse
  split
  · simp
  · split <;> simp

/-- C4: in file mode, a file whose declared size exceeds the 4.5 MB ceiling
is rejected with the payload-too-large message before any outbound network
call: no request to the backend (and hence none to the external
transcription service) is dispatched. -/
theorem oversize_file_rejected_without_network (u : String) (f : ClientFile)
    (h : f.size > MAX_UPLOAD_BYTES) :
    handleTranscribe .file u (some f) =
      ([], some "轉換失敗：檔案大小超過 4.5MB 限制，無法上傳。") := by
  unfold handleTranscribe
  rw [if_neg]
  · simp [h]
  · rintro (⟨h1, _⟩ | ⟨_, h2⟩) <;> simp_all

/-- Witness for C4 at a 4718593-byte file (one byte over the ceiling). -/
theorem oversize_file_rejected_without_network_witness :
    handleTranscribe .file "" (some ⟨"clip.mp4", "video/mp4", 4718593⟩) =
      ([], some "轉換失敗：檔案大小超過 4.5MB 限制，無法上傳。") :=
  oversize_file_rejected_without_network "" ⟨"clip.mp4", "video/mp4", 4718593⟩ (by decide)

/-- C9: switching the input mode resets the URL input, the selected file,
the displayed file name, the transcript, the error state (and the copy
indicator) to their initial empty values in one full reset; afterwards only
the input-mode selector reflects the new choice (the loading flag is the
one field `handleTypeChange` does not touch). -/
theorem mode_switch_full_reset (s : TranscriberState) (t : InputType) :
    handleTypeChange s t =
      { inputType := t, urlValue := "", file := none, fileName := "",
        isLoading := s.isLoading, transcript := "", error := "", isCopied := false } := rfl

/-- C10: in the transcribe-by-url handler, with a valid URL, a duration
within the limit and an available audio-only format, the full audio
download is performed before the credential check: with the credential
absent the effect trace still contains the completed download, and the
response is the credential-misconfiguration error. -/
theorem download_precedes_credential_check (u au : String) (w : YtWorld) (info : YtVideoInfo)
    (hu : u ≠ "") (hv : w.urlValid = true) (hi : w.info = .ok info)
    (hd : info.lengthSeconds ≤ MAX_VIDEO_DURATION_SECONDS)
    (hf : w.audioFormat = some ()) (hdl : w.audioDownload = .ok au)
    (hk : w.apiKeySet = false) :
    ytHandler "POST" (some u) w =
      ([.getInfo, .download], ⟨500, .err "伺服器 API 金鑰設定錯誤。"⟩) := by
  unfold ytHandler
  rw [if_neg (by simp)]
  simp only [hi, hf, hdl, hk]
  rw [if_neg (by simp [hu, hv])]
  rw [if_neg (by omega)]
  simp
  decide

/-- Witness for C10 at a concrete request with a missing credential. -/
theorem download_precedes_credential_check_witness :
    ytHandler "POST" (some "https://youtu.be/x")
        ⟨true, .ok ⟨500⟩, some (), .ok "audiobytes", false, .ok "t"⟩ =
      ([.getInfo, .download], ⟨500, .err "伺服器 API 金鑰設定錯誤。"⟩) :=
  download_precedes_credential_check "https://youtu.be/x" "audiobytes"
    ⟨true, .ok ⟨500⟩, some (), .ok "audiobytes", false, .ok "t"⟩ ⟨500⟩
    (by decide) rfl rfl (by decide) rfl rfl rfl

/-- C6: in the transcribe-by-url handler a resolved duration of exactly
600 seconds is never rejected by the duration check, while a duration of
601 seconds or more is rejected with the 400 duration error after only the
metadata resolution — before the audio download or AI call. -/
theorem yt_duration_boundary (u : String) (w : YtWorld) (info : YtVideoInfo)
    (hu : u ≠ "") (hv : w.urlValid = true) (hi : w.info = .ok info) :
    (info.lengthSeconds = 600 → (ytHandler "POST" (some u) w).2 ≠ durationLimitResponse)
    ∧ (601 ≤ info.lengthSeconds →
        ytHandler "POST" (some u) w = ([.getInfo], durationLimitResponse)) := by
  constructor
  · intro h600
    unfold ytHandler
    rw [if_neg (by simp)]
    simp only [hi]
    rw [if_neg (by simp [hu, hv])]
    rw [if_neg (by simp [h600, MAX_VIDEO_DURATION_SECONDS])]
    cases haf : w.audioFormat with
    | none => simp; decide
    | some _ =>
      cases had : w.audioDownload with
      | error e => simp [ytCatch_ne_durationLimit]
      | ok b =>
        by_cases hk : w.apiKeySet = false
        · simp [hk, ytCatch_ne_durationLimit]
        · rw [if_neg hk]
          cases hai : w.aiResult with
          | error e => simp [ytCatch_ne_durationLimit]
          | ok t => simp [durationLimitResponse]
  · intro h601
    unfold ytHandler
    rw [if_neg (by simp)]
    simp only [hi]
    rw [if_neg (by simp [hu, hv])]
    rw [if_pos (by simp [MAX_VIDEO_DURATION_SECONDS]; omega)]

/-- Witness for C6: a 600-second video is not duration-rejected and a
601-second video is. -/
theorem yt_duration_boundary_witness :
    (ytHandler "POST" (some "https://youtu.be/x")
        ⟨true, .ok ⟨600⟩, some (), .ok "b", true, .ok "t"⟩).2 ≠ durationLimitResponse
    ∧ ytHandler "POST" (some "https://youtu.be/x")
        ⟨true, .ok ⟨601⟩, some (), .ok "b", true, .ok "t"⟩ =
      ([.getInfo], durationLimitResponse) :=
  ⟨(yt_duration_boundary "https://youtu.be/x"
      ⟨true, .ok ⟨600⟩, some (), .ok "b", true, .ok "t"⟩ ⟨600⟩
      (by decide) rfl rfl).1 rfl,
   (yt_duration_boundary "https://youtu.be/x"
      ⟨true, .ok ⟨601⟩, some (), .ok "b", true, .ok "t"⟩ ⟨601⟩
      (by decide) rfl rfl).2 (by decide)⟩

theorem startsWithChars_lower : ∀ (s p : List Char), startsWithChars s p = true →
    startsWithChars (lowerChars s) (lowerChars p) = true := by
  intro s
  induction s with
  | nil => intro p h; cases p <;> simp_all [startsWithChars, lowerChars]
  | cons c cs ih =>
    intro p h
    cases p with
    | nil => simp [startsWithChars, lowerChars]
    | cons d ds =>
      rw [startsWithChars, Bool.and_eq_true] at h
      have hc : c = d := by simpa using h.1
      simp only [lowerChars, List.map_cons]
      rw [startsWithChars, Bool.and_eq_true]
      refine ⟨by simp [hc], ?_⟩
      have := ih ds h.2
      simpa [lowerChars] using this

theorem containsChars_lower : ∀ (h n : List Char), containsChars h n = true →
    containsChars (lowerChars h) (lowerChars n) = true := by
  intro h
  induction h with
  | nil =>
    intro n hn
    rw [containsChars] at hn
    have : n = [] := by simpa [List.isEmpty_iff] using hn
    subst this
    simp [containsChars, lowerChars]
  | cons c cs ih =>
    intro n hn
    rw [containsChars, Bool.or_eq_true] at hn
    cases hn with
    | inl hs =>
      have := startsWithChars_lower (c :: cs) n hs
      simp only [lowerChars, List.map_cons] at this ⊢
      rw [containsChars, Bool.or_eq_true]
      left
      simpa [lowerChars] using this
    | inr hr =>
      have := ih n hr
      simp only [lowerChars, List.map_cons]
      rw [containsChars, Bool.or_eq_true]
      right
      simpa [lowerChars] using this

/-- The upstream error message contains the words `API key` in some casing:
there is a contiguous occurrence whose character-wise lowercasing is
`api key`. -/
def apiKeyMarkerCI (msg : String) : Prop :=
  ∃ s : String, containsStr msg s = true ∧ lowerStr s = "api key"

theorem apiKeyMarkerCI_lower {msg : String} (h : apiKeyMarkerCI msg) :
    containsStr (lowerStr msg) "api key" = true := by
  obtain ⟨s, hc, hl⟩ := h
  have h2 := containsChars_lower msg.data s.data hc
  have h3 : lowerChars s.data = "api key".data := congrArg String.data hl
  rw [h3] at h2
  exact h2

/-- C7: for both transcription endpoints, when the external AI call fails
with a message containing `API key` in any casing, the handler responds
with HTTP 500 and the fixed credential-misconfiguration message — a
server-side error, never a user-input (4xx) error — whatever the rest of
the upstream wording. -/
theorem credential_error_normalized
    (fd mt msgF : String) (wf : FileWorld)
    (u au msgY : String) (wy : YtWorld) (info : YtVideoInfo)
    (hfd : fd ≠ "") (hmt : mt ≠ "")
    (hkf : wf.apiKeySet = true) (haf : wf.aiResult = .error msgF)
    (hmf : apiKeyMarkerCI msgF)
    (hv : wy.urlValid = true) (hu : u ≠ "") (hi : wy.info = .ok info)
    (hdur : info.lengthSeconds ≤ MAX_VIDEO_DURATION_SECONDS)
    (hfmt : wy.audioFormat = some ()) (hdl : wy.audioDownload = .ok au)
    (hky : wy.apiKeySet = true) (hay : wy.aiResult = .error msgY)
    (hmy : apiKeyMarkerCI msgY) :
    (fileHandler "POST" (some fd) (some mt) wf).2
      = ⟨500, .err "伺服器 API 金鑰設定錯誤。"⟩
    ∧ (ytHandler "POST" (some u) wy).2 = ⟨500, .err "伺服器 API 金鑰設定錯誤。"⟩ := by
  constructor
  · unfold fileHandler
    rw [if_neg (by simp)]
    rw [if_neg (by simp [hfd, hmt])]
    rw [if_neg (by simp [hkf])]
    simp only [haf]
    unfold fileCatch
    rw [if_pos (by simp [apiKeyMarkerCI_lower hmf])]
  · unfold ytHandler
    rw [if_neg (by simp)]
    simp only [hi, hfmt, hdl]
    rw [if_neg (by simp [hu, hv])]
    rw [if_neg (by omega)]
    rw [if_neg (by simp [hky])]
    simp only [hay]
    unfold ytCatch
    rw [if_pos (by simp [apiKeyMarkerCI_lower hmy])]

/-- Witness for C7: a mixed-case upstream message `Invalid API KEY
provided` on both endpoints. -/
theorem credential_error_normalized_witness :
    (fileHandler "POST" (some "AAAA") (some "audio/mp4")
        ⟨true, .error "Invalid API KEY provided"⟩).2
      = ⟨500, .err "伺服器 API 金鑰設定錯誤。"⟩
    ∧ (ytHandler "POST" (some "https://youtu.be/x")
        ⟨true, .ok ⟨60⟩, some (), .ok "b", true, .error "Invalid API KEY provided"⟩).2
      = ⟨500, .err "伺服器 API 金鑰設定錯誤。"⟩ :=
  credential_error_normalized "AAAA" "audio/mp4" "Invalid API KEY provided"
    ⟨true, .error "Invalid API KEY provided"⟩
    "https://youtu.be/x" "b" "Invalid API KEY provided"
    ⟨true, .ok ⟨60⟩, some (), .ok "b", true, .error "Invalid API KEY provided"⟩ ⟨60⟩
    (by decide) (by decide) rfl rfl ⟨"API KEY", by decide, by decide⟩
    rfl (by decide) rfl (by decide) rfl rfl rfl rfl
    ⟨"API KEY", by decide, by decide⟩

/-- C8 counterexample: the handlers match the substring
`resource has been exhausted`, not `resource exhausted`; an upstream
message that is exactly `resource exhausted` falls through to the generic
500, and a message containing both `API key` and the exhausted marker is
classified as the credential error, not 413. -/
theorem upstream_exhausted_counterexample :
    (fileHandler "POST" (some "AAAA") (some "audio/mp4")
        ⟨true, .error "resource exhausted"⟩).2
      = ⟨500, .errWithDetails "處理檔案時發生錯誤。" "resource exhausted"⟩
    ∧ (fileHandler "POST" (some "AAAA") (some "audio/mp4")
        ⟨true, .error "API key limit: resource exhausted"⟩).2
      = ⟨500, .err "伺服器 API 金鑰設定錯誤。"⟩ := by decide

/-- C8 (amended): when the AI call fails with a message that does not
match the credential markers and whose lowercasing contains
`resource has been exhausted` — or, on the file endpoint, alternatively
`request entity too large` — the handler responds 413 with its
payload-too-large message. -/
theorem upstream_exhausted_maps_to_413
    (fd mt msgF : String) (wf : FileWorld)
    (u au msgY : String) (wy : YtWorld) (info : YtVideoInfo)
    (hfd : fd ≠ "") (hmt : mt ≠ "")
    (hkf : wf.apiKeySet = true) (haf : wf.aiResult = .error msgF)
    (hnkF : (containsStr (lowerStr msgF) "api key" || containsStr msgF "API_KEY") = false)
    (hsubF : (containsStr (lowerStr msgF) "resource has been exhausted" ||
              containsStr (lowerStr msgF) "request entity too large") = true)
    (hv : wy.urlValid = true) (hu : u ≠ "") (hi : wy.info = .ok info)
    (hdur : info.lengthSeconds ≤ MAX_VIDEO_DURATION_SECONDS)
    (hfmt : wy.audioFormat = some ()) (hdl : wy.audioDownload = .ok au)
    (hky : wy.apiKeySet = true) (hay : wy.aiResult = .error msgY)
    (hnkY : (containsStr (lowerStr msgY) "api key" || containsStr msgY "API_KEY") = false)
    (hsubY : containsStr (lowerStr msgY) "resource has been exhausted" = true) :
    (fileHandler "POST" (some fd) (some mt) wf).2
      = ⟨413, .err "檔案過大，無法處理。請上傳小於 4.5MB 的檔案。"⟩
    ∧ (ytHandler "POST" (some u) wy).2 = ⟨413, .err "影片檔案過大，無法處理。"⟩ := by
  constructor
  · unfold fileHandler
    rw [if_neg (by simp)]
    rw [if_neg (by simp [hfd, hmt])]
    rw [if_neg (by simp [hkf])]
    simp only [haf]
    unfold fileCatch
    rw [if_neg (by simp [hnkF])]
    rw [if_pos hsubF]
  · unfold ytHandler
    rw [if_neg (by simp)]
    simp only [hi, hfmt, hdl]
    rw [if_neg (by simp [hu, hv])]
    rw [if_neg (by omega)]
    rw [if_neg (by simp [hky])]
    simp only [hay]
    unfold ytCatch
    rw [if_neg (by simp [hnkY])]
    rw [if_pos hsubY]

/-- Witness for the amended C8 at the upstream wording
`Resource has been exhausted (e.g. check quota).` on both endpoints. -/
theorem upstream_exhausted_maps_to_413_witness :
    (fileHandler "POST" (some "AAAA") (some "audio/mp4")
        ⟨true, .error "Resource has been exhausted (e.g. check quota)."⟩).2
      = ⟨413, .err "檔案過大，無法處理。請上傳小於 4.5MB 的檔案。"⟩
    ∧ (ytHandler "POST" (some "https://youtu.be/x")
        ⟨true, .ok ⟨60⟩, some (), .ok "b", true,
         .error "Resource has been exhausted (e.g. check quota)."⟩).2
      = ⟨413, .err "影片檔案過大，無法處理。"⟩ :=
  upstream_exhausted_maps_to_413 "AAAA" "audio/mp4"
    "Resource has been exhausted (e.g. check quota)."
    ⟨true, .error "Resource has been exhausted (e.g. check quota)."⟩
    "https://youtu.be/x" "b" "Resource has been exhausted (e.g. check quota)."
    ⟨true, .ok ⟨60⟩, some (), .ok "b", true,
     .error "Resource has been exhausted (e.g. check quota)."⟩ ⟨60⟩
    (by decide) (by decide) rfl rfl (by decide) (by decide)
    rfl (by decide) rfl (by decide) rfl rfl rfl rfl (by decide) (by decide)

theorem pair_sublist_filter {α : Type} (p : α → Bool) {a b : α} {l : List α}
    (h : [a, b].Sublist l) (ha : p a = true) (hb : p b = true) :
    [a, b].Sublist (l.filter p) := by
  have h2 := List.Sublist.filter p h
  rw [show List.filter p [a, b] = [a, b] from by simp [ha, hb]] at h2
  exact h2

/-- A date-time function under which every date string is equal. -/
def gZero : String → Int := fun _ => 0

/-- A one-article store whose title and content contain no whitespace. -/
def artX : NewsArticle := ⟨1, "ch1", "ab", "cd", "2024-01-01", "u"⟩

/-- C1 counterexample: with the whitespace-only search string `" "` the
search filter is skipped (`searchQuery.trim() !== ''` fails), so `artX` is
returned even though the lowercased query does not occur in its title or
content — the substring predicate of the claim fails on a returned
article. -/
theorem query_substring_claim_counterexample :
    artX ∈ filteredNews gZero [artX] "all" " " ∧ substrPred " " artX = false := by
  constructor
  · simp [filteredNews, selectNews, jsTrim, List.mergeSort, artX]
  · decide

/-- C1 (amended): every article returned by the query satisfies the channel
predicate; when the search string has a non-empty trim it also satisfies
the case-insensitive substring predicate; and with channel filter `all`
and the empty search string the query returns exactly the articles of the
store (a permutation). -/
theorem query_filters_sound (g : String → Int) (store : List NewsArticle) (c q : String) :
    (∀ a ∈ filteredNews g store c q,
        channelPred c a = true ∧ (jsTrim q ≠ "" → substrPred q a = true))
    ∧ (filteredNews g store "all" "").Perm store := by
  constructor
  · intro a ha
    have ha2 : a ∈ selectNews store c q :=
      (List.mergeSort_perm (selectNews store c q) (descByDate g)).mem_iff.mp ha
    simp only [selectNews] at ha2
    by_cases htrim : jsTrim q = ""
    · rw [if_neg (not_not_intro htrim)] at ha2
      refine ⟨?_, fun hq => absurd htrim hq⟩
      by_cases hc : (c == "all") = true
      · simp [channelPred, hc]
      · rw [if_neg hc] at ha2
        have := (List.mem_filter.mp ha2).2
        simp only [channelPred]
        simp [this]
    · rw [if_pos htrim] at ha2
      have hmem := List.mem_filter.mp ha2
      refine ⟨?_, fun _ => hmem.2⟩
      by_cases hc : (c == "all") = true
      · simp [channelPred, hc]
      · rw [if_neg hc] at hmem
        have := (List.mem_filter.mp hmem.1).2
        simp only [channelPred]
        simp [this]
  · have hsel : selectNews store "all" "" = store := by
      simp [selectNews, jsTrim]
    unfold filteredNews
    rw [hsel]
    exact List.mergeSort_perm store (descByDate g)

/-- An article whose title contains the word `News`. -/
def artY : NewsArticle := ⟨2, "ch2", "Election News", "body", "2024-03-01", "u"⟩

/-- Witness for the amended C1 at the query `news` on a store containing
`artY`. -/
theorem query_filters_sound_witness :
    channelPred "all" artY = true ∧ (jsTrim "news" ≠ "" → substrPred "news" artY = true) :=
  (query_filters_sound gZero [artY] "all" "news").1 artY
    ((List.mergeSort_perm (selectNews [artY] "all" "news") (descByDate gZero)).mem_iff.mpr
      (by decide))

/-- A date-time function ordering `2024-01-02` after every other date. -/
def gDemo : String → Int := fun d => if d = "2024-01-02" then 2 else 1

/-- An article dated `2024-01-01`. -/
def artOld : NewsArticle := ⟨1, "ch1", "old ab", "cd", "2024-01-01", "u1"⟩

/-- An article dated `2024-01-02`. -/
def artNew : NewsArticle := ⟨2, "ch1", "new ef", "gh", "2024-01-02", "u2"⟩

/-- C2 (code bug): evaluating the query with channel filter `all` and the
empty search string reorders the store array itself — the in-place
`Array.prototype.sort` runs on the aliased `MOCK_NEWS_DATA`, so a store
held in ascending date order is left permuted, contradicting the store's
specified immutability. -/
theorem store_mutated_by_query :
    storeAfterQuery gDemo [artOld, artNew] "all" "" ≠ [artOld, artNew] := by
  simp [storeAfterQuery, jsTrim, List.mergeSort, List.merge, descByDate, gDemo, artOld, artNew]

/-- C5: the query result is pairwise date-descending, and any two selected
articles with equal date values appear in the result in their original
store order (the sort is stable). -/
theorem query_sorted_and_stable (g : String → Int) (store : List NewsArticle) (c q : String) :
    (filteredNews g store c q).Pairwise (fun a b => g b.date ≤ g a.date)
    ∧ ∀ a b : NewsArticle, g a.date = g b.date → [a, b].Sublist store →
        a ∈ selectNews store c q → b ∈ selectNews store c q →
        [a, b].Sublist (filteredNews g store c q) := by
  have htrans : ∀ x y z : NewsArticle, descByDate g x y = true → descByDate g y z = true →
      descByDate g x z = true := by
    intro x y z h1 h2
    simp only [descByDate, decide_eq_true_eq] at h1 h2 ⊢
    exact le_trans h2 h1
  have htotal : ∀ x y : NewsArticle, (descByDate g x y || descByDate g y x) = true := by
    intro x y
    simp only [descByDate, Bool.or_eq_true, decide_eq_true_eq]
    exact le_total (g y.date) (g x.date)
  constructor
  · have hs := List.sorted_mergeSort htrans htotal (selectNews store c q)
    exact hs.imp (fun hab => by simpa [descByDate] using hab)
  · intro a b hdate hsub hma hmb
    have hsel : [a, b].Sublist (selectNews store c q) := by
      simp only [selectNews] at hma hmb ⊢
      by_cases htrim : jsTrim q = ""
      · rw [if_neg (not_not_intro htrim)] at hma hmb ⊢
        by_cases hc : (c == "all") = true
        · rw [if_pos hc] at hma hmb ⊢
          exact hsub
        · rw [if_neg hc] at hma hmb ⊢
          exact pair_sublist_filter _ hsub (List.mem_filter.mp hma).2 (List.mem_filter.mp hmb).2
      · rw [if_pos htrim] at hma hmb ⊢
        by_cases hc : (c == "all") = true
        · rw [if_pos hc] at hma hmb ⊢
          exact pair_sublist_filter _ hsub (List.mem_filter.mp hma).2 (List.mem_filter.mp hmb).2
        · rw [if_neg hc] at hma hmb ⊢
          have hma2 := List.mem_filter.mp hma
          have hmb2 := List.mem_filter.mp hmb
          have h1 : [a, b].Sublist (store.filter (fun x => x.channelId == c)) :=
            pair_sublist_filter _ hsub (List.mem_filter.mp hma2.1).2 (List.mem_filter.mp hmb2.1).2
          exact pair_sublist_filter _ h1 hma2.2 hmb2.2
    have hpair : List.Pairwise (fun x y => descByDate g x y = true) [a, b] := by
      simp [descByDate, hdate]
    exact List.sublist_mergeSort htrans htotal hpair hsel

/-- First of two articles sharing the date `2024-05-05`. -/
def artTieA : NewsArticle := ⟨1, "ch1", "t1", "c1", "2024-05-05", "u1"⟩

/-- Second of two articles sharing the date `2024-05-05`. -/
def artTieB : NewsArticle := ⟨2, "ch1", "t2", "c2", "2024-05-05", "u2"⟩

/-- Witness for C5: two equal-dated articles keep their store order in the
query result. -/
theorem query_sorted_and_stable_witness :
    [artTieA, artTieB].Sublist (filteredNews gZero [artTieA, artTieB] "all" "") :=
  (query_sorted_and_stable gZero [artTieA, artTieB] "all" "").2 artTieA artTieB rfl
    (List.Sublist.refl _) (by decide) (by decide)

theorem splitHighlight_flatten (q text : List Char) :
    (splitHighlight q text).flatten = text := by
  induction text using splitHighlight.induct q with
  | case1 x hq => rw [splitHighlight]; rw [dif_pos hq]; simp
  | case2 x hq hm =>
    rw [splitHighlight]; rw [dif_neg hq]
    split
    · simp
    · rename_i b2 m2 a2 heq
      rw [hm] at heq
      cases heq
  | case3 x hq b m a hm ih =>
    rw [splitHighlight]; rw [dif_neg hq]
    split
    · rename_i heq
      rw [hm] at heq
      cases heq
    · rename_i b2 m2 a2 heq
      rw [hm] at heq
      injection heq with h3
      cases h3
      simp only [List.flatten_cons, ih]
      have h4 := findMatchCI_append q x b m a hm
      simpa using h4

/-- C3 (supporting theorem for the code-bug finding): on the modelled
domain — queries all of whose characters are regex-literal — concatenating
the segments produced by the highlighting function reproduces the original
text exactly, and the empty (falsy) query yields the unsplit text with no
highlighting.  The claim quantifies over every query; outside this domain
the source interpolates the raw query into the `RegExp` constructor, which
throws on a syntactically invalid pattern such as the query `(` — the
code-bug finding recorded for this claim. -/
theorem highlight_segments_concat (text query : String)
    (_hq : regexLiteralQuery query = true) :
    concatSegments (renderHighlightedText text query) = text
    ∧ renderHighlightedText text "" = [text] := by
  constructor
  · unfold renderHighlightedText
    by_cases h : query = ""
    · simp [h, concatSegments]
    · rw [if_neg h]
      unfold concatSegments
      rw [List.map_map]
      rw [show (String.data ∘ String.mk) = fun l : List Char => l from rfl]
      rw [List.map_id']
      rw [splitHighlight_flatten query.data text.data]
  · simp [renderHighlightedText]

/-- Witness for C3's supporting theorem at the text `Hello hELLo` and the
regex-literal query `ell`. -/
theorem highlight_segments_concat_witness :
    regexLiteralQuery "ell" = true
    ∧ concatSegments (renderHighlightedText "Hello hELLo" "ell") = "Hello hELLo"
    ∧ renderHighlightedText "Hello hELLo" "" = ["Hello hELLo"] :=
  ⟨by decide, (highlight_segments_concat "Hello hELLo" "ell" (by decide)).1,
   (highlight_segments_concat "Hello hELLo" "ell" (by decide)).2⟩
